import Mathlib

set_option linter.unusedVariables false

/-! Shallow embedding of src/transaction.js (transaction building, wire
serialization, sighash preimage construction and signing for a
replay-protected Bitcoin-derived network).

Modelling conventions:
* JavaScript hex strings are modelled as lists of hex-digit values, one
  entry per character, each entry in 0..15 (type Hex below).  String
  concatenation is list append and String.length is list length, so the
  distinction between character count and byte count of a hex string is
  preserved exactly.
* JavaScript numbers are modelled as natural numbers.  Node Buffer write
  calls that throw RangeError outside their range are modelled as Option
  (none = RangeError).  The single numeric literal that exceeds exact
  double precision, Math.pow(2,64) - 1, is modelled by the value it
  actually evaluates to under IEEE-754 rounding (see jsMaxUint64).
* The shallow Object.assign copy in signatureForm shares the input and
  output objects between the copy and the caller's transaction; the
  embedding makes this aliasing explicit by returning both the new
  transaction and the caller's transaction as it stands after the call.
* External capabilities (bs58check decode, key derivation, hashing, the
  ECDSA primitive) are opaque function parameters. -/

/-- A JavaScript hex string: one entry per hex character (digit value 0..15). -/
abbrev Hex := List Nat

/-- The two hex digits of one byte, as Buffer.toString renders a byte
(bytes are taken modulo 256, matching the Uint8 coercion of Buffer.from). -/
def hexOfByte (b : Nat) : Hex := [b / 16 % 16, b % 16]

/-- Hex digits of a byte list (Buffer.toString with hex encoding). -/
def hexOfBytes : List Nat → Hex
  | [] => []
  | b :: bs => hexOfByte b ++ hexOfBytes bs

/-- Byte list parsed from a hex string (Buffer.from with hex encoding);
a trailing unpaired digit is dropped, as Node does. -/
def bytesOfHex : Hex → List Nat
  | a :: b :: rest => (a * 16 + b) :: bytesOfHex rest
  | _ => []

/-- getStringBufferLength from the source: the byte length of a hex string
(NOT its character count), re-encoded as one hex byte. -/
def getStringBufferLength (hexStr : Hex) : Hex := hexOfByte (hexStr.length / 2)

/-- numToBytes from the source: little-endian byte decomposition by
repeated division. -/
def numToBytes (num bytes : Nat) : List Nat :=
  match bytes with
  | 0 => []
  | b + 1 => num % 256 :: numToBytes (num / 256) b

/-- numToVarInt from the source: compact variable-length integer encoding,
rendered as a hex string.  Note the final branch reuses marker 253. -/
def numToVarInt (num : Nat) : Hex :=
  hexOfBytes
    (if num < 253 then [num]
     else if num < 65536 then 253 :: numToBytes num 2
     else if num < 4294967296 then 254 :: numToBytes num 4
     else 253 :: numToBytes num 8)

/-- Buffer.alloc(4) followed by writeUInt16LE at offset 0: two little-endian
bytes then two zero bytes; RangeError (none) outside the uint16 range. -/
def writeUInt16LEbuf4 (v : Nat) : Option (List Nat) :=
  if v < 65536 then some [v % 256, v / 256 % 256, 0, 0] else none

/-- The four little-endian bytes of a uint32 value. -/
def uint32LEBytes (v : Nat) : List Nat :=
  [v % 256, v / 256 % 256, v / 65536 % 256, v / 16777216 % 256]

/-- Buffer.writeUInt32LE: RangeError (none) outside the uint32 range. -/
def writeUInt32LE4 (v : Nat) : Option (List Nat) :=
  if v < 4294967296 then some (uint32LEBytes v) else none

/-- The number the source's SIGHASH_SINGLE placeholder literal evaluates to:
Math.pow(2,64) - 1 rounds to 2^64 under IEEE-754 double arithmetic (the
integer 2^64 - 1 is not representable as a double), so every occurrence of
that expression in the source denotes 2^64 = 18446744073709551616. -/
def jsMaxUint64 : Nat := 18446744073709551616

/-- SIGHASH code from the source. -/
def SIGHASH_ALL : Nat := 1

/-- SIGHASH code from the source. -/
def SIGHASH_NONE : Nat := 2

/-- SIGHASH code from the source. -/
def SIGHASH_SINGLE : Nat := 3

/-- SIGHASH code from the source. -/
def SIGHASH_ANYONECANPAY : Nat := 128

/-- Opcode hex constant from the source. -/
def OP_DUP : Hex := [7, 6]

/-- Opcode hex constant from the source. -/
def OP_HASH160 : Hex := [10, 9]

/-- Opcode hex constant from the source. -/
def OP_EQUALVERIFY : Hex := [8, 8]

/-- Opcode hex constant from the source. -/
def OP_CHECKSIG : Hex := [10, 12]

/-- Opcode hex constant from the source. -/
def OP_CHECKBLOCKATHEIGHT : Hex := [11, 4]

/-- The bytes of the hardcoded replay-protection block hash literal
00000004bbe8504b7a8e7c6e23ea6fa57878ce946f9819752405d964175c4276. -/
def blockHashBytes : List Nat :=
  [0x00, 0x00, 0x00, 0x04, 0xbb, 0xe8, 0x50, 0x4b,
   0x7a, 0x8e, 0x7c, 0x6e, 0x23, 0xea, 0x6f, 0xa5,
   0x78, 0x78, 0xce, 0x94, 0x6f, 0x98, 0x19, 0x75,
   0x24, 0x05, 0xd9, 0x64, 0x17, 0x5c, 0x42, 0x76]

/-- The hardcoded block hash as the lowercase hex string the source stores. -/
def blockHashConst : Hex := hexOfBytes blockHashBytes

/-- mkPubkeyHashReplayScript from the source.  The bs58check decode
capability is an opaque function parameter; everything after the address
payload is built from the hardcoded block height 141575 and hash. -/
def mkPubkeyHashReplayScript (decode : String → Hex) (address : String) : Hex :=
  let addrHex := decode address
  let subAddrHex := addrHex.drop 4
  let blockHeight : Nat := 141575
  let b4 := uint32LEBytes blockHeight
  let blockHeightBuffer := if b4.getD 3 0 = 0 then b4.take 3 else b4
  let blockHeightHex := hexOfBytes blockHeightBuffer
  let blockHeightLength := getStringBufferLength blockHeightHex
  let blockHashHex := hexOfBytes ((bytesOfHex blockHashConst).reverse)
  let blockHashLength := getStringBufferLength blockHashHex
  OP_DUP ++ OP_HASH160 ++ getStringBufferLength subAddrHex ++ subAddrHex ++
    OP_EQUALVERIFY ++ OP_CHECKSIG ++ blockHashLength ++ blockHashHex ++
    blockHeightLength ++ blockHeightHex ++ OP_CHECKBLOCKATHEIGHT

/-- A transaction input (ins entry of TXOBJ). -/
structure TxIn where
  outputHash : Hex
  outputVout : Nat
  script : Hex
  sequence : Hex
  deriving DecidableEq

/-- A transaction output (outs entry of TXOBJ). -/
structure TxOut where
  script : Hex
  satoshis : Nat
  deriving DecidableEq

/-- The TXOBJ transaction structure. -/
structure TXOBJ where
  locktime : Nat
  version : Nat
  ins : List TxIn
  outs : List TxOut
  deriving DecidableEq

/-- Errors raised by the embedded code: typeError models a JavaScript
TypeError (property access on undefined), rangeError a Node RangeError. -/
inductive SigErr where
  | typeError
  | rangeError
  deriving DecidableEq

/-- Replace an input's script field (ins[j].script = s). -/
def setScript (x : TxIn) (s : Hex) : TxIn := { x with script := s }

/-- Clear one input's script (the loop body ins[j].script = empty). -/
def clearIn (x : TxIn) : TxIn := { x with script := [] }

/-- Clear every input's script. -/
def clearScripts (l : List TxIn) : List TxIn := l.map clearIn

/-- The SIGHASH_SINGLE loop body: overwrite an output with the placeholder
amount and an empty script. -/
def blankOut (_o : TxOut) : TxOut := { script := [], satoshis := jsMaxUint64 }

/-- Apply blankOut to the first k outputs (the loop j = 0 .. k-1). -/
def blankBefore : Nat → List TxOut → List TxOut
  | _, [] => []
  | 0, l => l
  | k + 1, o :: rest => blankOut o :: blankBefore k rest

/-- signatureForm from the source.  Object.assign makes only a shallow
copy, so the input objects (and, in SINGLE mode, the retained output
objects) are shared with the caller's transaction: the returned pair is
(newTx, the caller's transaction as mutated by the call).  Writing to a
property of undefined (out-of-range index i, or the SINGLE loop running
past the sliced outputs) is a TypeError. -/
def signatureForm (txObj : TXOBJ) (i : Nat) (script : Hex) (hashcode : Nat) :
    Except SigErr (TXOBJ × TXOBJ) :=
  let cleared := clearScripts txObj.ins
  match cleared.get? i with
  | none => .error .typeError
  | some ci =>
    let newIns := cleared.set i (setScript ci script)
    if hashcode = SIGHASH_NONE then
      .ok ({ txObj with ins := newIns, outs := [] }, { txObj with ins := newIns })
    else if hashcode = SIGHASH_SINGLE then
      let sliced := txObj.outs.take newIns.length
      if sliced.length < newIns.length - 1 then .error .typeError
      else
        .ok ({ txObj with ins := newIns, outs := blankBefore (newIns.length - 1) sliced },
             { txObj with ins := newIns, outs := blankBefore (newIns.length - 1) txObj.outs })
    else if hashcode = SIGHASH_ANYONECANPAY then
      .ok ({ txObj with ins := [setScript ci script], outs := txObj.outs },
           { txObj with ins := newIns })
    else
      .ok ({ txObj with ins := newIns }, { txObj with ins := newIns })

/-- Concatenation of a list of hex strings. -/
def concatAll : List Hex → Hex
  | [] => []
  | h :: t => h ++ concatAll t

/-- One input's contribution to serializeTx: previous tx hash as stored,
vout written with writeUInt16LE into a 4-byte buffer, then
numToVarInt(script.length) over the script's CHARACTER count, the script,
and the pre-encoded sequence string. -/
def serializeIn (inp : TxIn) : Option Hex :=
  match writeUInt16LEbuf4 inp.outputVout with
  | none => none
  | some voutBuf =>
    some (inp.outputHash ++ hexOfBytes voutBuf ++
          numToVarInt inp.script.length ++ inp.script ++ inp.sequence)

/-- One output's contribution to serializeTx: the 8-byte amount buffer
(8 bytes of 0xFF for the SIGHASH_SINGLE placeholder, else writeUInt32LE
into the low half of a zeroed 8-byte buffer), then
numToVarInt(script.length) over the script's CHARACTER count and the
script. -/
def serializeOut (o : TxOut) : Option Hex :=
  if o.satoshis = jsMaxUint64 then
    some (hexOfBytes [255, 255, 255, 255, 255, 255, 255, 255] ++
          numToVarInt o.script.length ++ o.script)
  else
    match writeUInt32LE4 o.satoshis with
    | none => none
    | some b =>
      some (hexOfBytes (b ++ [0, 0, 0, 0]) ++ numToVarInt o.script.length ++ o.script)

/-- serializeTx from the source: version buffer, input count varint, the
inputs in order, output count varint, the outputs in order, locktime
buffer.  Version and locktime are written with writeUInt16LE into a 4-byte
buffer. -/
def serializeTx (txObj : TXOBJ) : Option Hex := do
  let verBuf ← writeUInt16LEbuf4 txObj.version
  let insHex ← txObj.ins.mapM serializeIn
  let outsHex ← txObj.outs.mapM serializeOut
  let lockBuf ← writeUInt16LEbuf4 txObj.locktime
  return hexOfBytes verBuf ++ numToVarInt txObj.ins.length ++ concatAll insHex ++
    numToVarInt txObj.outs.length ++ concatAll outsHex ++ hexOfBytes lockBuf

/-- The test '89abcdef'.indexOf(b[0]) != -1: the first hex character of the
string denotes a digit 8..15, i.e. the high bit of the first byte is set. -/
def headIsHighDigit : Hex → Bool
  | [] => false
  | d :: _ => decide (8 ≤ d ∧ d < 16)

/-- The signature-encoding block of signTx (lines 310-323): split the raw
64-byte signature hex into r and s halves, zero-pad a half whose leading
digit is 8..f, wrap each half as a DER INTEGER, wrap the pair as a DER
SEQUENCE, and append the sighash code byte. -/
def encodeRawSig (rawsig : Hex) (hashcode : Nat) : Hex :=
  let b1 := rawsig.take 64
  let b2 := (rawsig.drop 64).take 128
  let b1 := if headIsHighDigit b1 then [0, 0] ++ b1 else b1
  let b2 := if headIsHighDigit b2 then [0, 0] ++ b2 else b2
  let left := [0, 2] ++ getStringBufferLength b1 ++ b1
  let right := [0, 2] ++ getStringBufferLength b2 ++ b2
  let sig := [3, 0] ++ getStringBufferLength (left ++ right) ++ left ++ right
  sig ++ hexOfByte (hashcode % 256)

/-- The external capabilities signTx consumes: public-key derivation,
address derivation, bs58check decode, double SHA-256, and the ECDSA
primitive (digest and private key to 64-byte raw signature hex). -/
structure Caps where
  privKeyToPubKey : Hex → Hex
  pubKeyToAddr : Hex → String
  bs58decode : String → Hex
  sha256x2 : List Nat → Hex
  sign : Hex → Hex → Hex

/-- signTx from the source: build the replay script for the signer's own
address, run signatureForm, serialize the preimage, append the 4-byte
hashcode buffer, digest, sign, DER-encode, and write the final unlocking
script into input i of the (aliased, already partly mutated) caller
transaction. -/
def signTx (caps : Caps) (txObj : TXOBJ) (i : Nat) (privKey : Hex) (hashcode : Nat) :
    Except SigErr TXOBJ :=
  match writeUInt16LEbuf4 hashcode with
  | none => .error .rangeError
  | some hcBuf =>
    let pubKey := caps.privKeyToPubKey privKey
    let script := mkPubkeyHashReplayScript caps.bs58decode (caps.pubKeyToAddr pubKey)
    match signatureForm txObj i script hashcode with
    | .error e => .error e
    | .ok (signingTx, txObj1) =>
      match serializeTx signingTx with
      | none => .error .rangeError
      | some signingTxHex =>
        let msg := caps.sha256x2 (bytesOfHex signingTxHex ++ hcBuf)
        let sigAndHashcode := encodeRawSig (caps.sign msg privKey) hashcode
        let finalScript := getStringBufferLength sigAndHashcode ++ sigAndHashcode ++
          getStringBufferLength pubKey ++ pubKey
        match txObj1.ins.get? i with
        | none => .error .typeError
        | some zi =>
          .ok { txObj1 with ins := txObj1.ins.set i (setScript zi finalScript) }

/-- Spec-side little-endian byte decomposition, written independently of
the source recursion: byte j is n / 256^j mod 256. -/
def leBytes (n k : Nat) : List Nat := (List.range k).map (fun j => n / 256 ^ j % 256)

/-- Follows the claim wording for one input of the serialized form: the
32-byte previous tx hash as stored, the previous output index as 4 bytes
little-endian, the script's length in BYTES as a varint, the script bytes,
and the sequence as stored. -/
def serializeInSpec (inp : TxIn) : Hex :=
  inp.outputHash ++ hexOfBytes (leBytes inp.outputVout 4) ++
    numToVarInt (inp.script.length / 2) ++ inp.script ++ inp.sequence

/-- Follows the claim wording for one output of the serialized form: the
amount as 8 bytes little-endian, the script's length in BYTES as a varint,
the script bytes. -/
def serializeOutSpec (o : TxOut) : Hex :=
  hexOfBytes (leBytes o.satoshis 8) ++ numToVarInt (o.script.length / 2) ++ o.script

/-- Follows the claim wording for the whole serialized transaction:
version 4 bytes LE, input count varint, inputs in order, output count
varint, outputs in order, lock time 4 bytes LE. -/
def serializeTxSpec (txObj : TXOBJ) : Hex :=
  hexOfBytes (leBytes txObj.version 4) ++ numToVarInt txObj.ins.length ++
    concatAll (txObj.ins.map serializeInSpec) ++ numToVarInt txObj.outs.length ++
    concatAll (txObj.outs.map serializeOutSpec) ++ hexOfBytes (leBytes txObj.locktime 4)

/-- Follows the claim wording for DER integer padding: a big-endian value
is prefixed with a zero byte exactly when the high bit of its first byte
is set. -/
def padHigh : List Nat → List Nat
  | [] => []
  | b :: rest => if 128 ≤ b then 0 :: b :: rest else b :: rest

/-- Follows the claim wording for the DER signature body: SEQUENCE tag
0x30, length byte, INTEGER tag 0x02, length byte, r bytes, INTEGER tag
0x02, length byte, s bytes. -/
def derPair (r s : List Nat) : List Nat :=
  [48, 4 + r.length + s.length, 2, r.length] ++ r ++ [2, s.length] ++ s

/-- Follows the claim wording for the replay-protection tail of every
pay-to-pubkey-hash replay script: a push (length byte 0x20) of the
byte-reversed hardcoded block hash, a push (length byte 0x03) of the
3-byte little-endian encoding of block height 141575 (0x07 0x29 0x02),
then OP_CHECKBLOCKATHEIGHT (0xb4). -/
def replaySuffixSpec : Hex :=
  hexOfBytes ([32] ++ blockHashBytes.reverse ++ [3] ++ [7, 41, 2] ++ [180])

/-- Concrete transaction for the script-length divergence: one input whose
script is the single byte 0x00 (hex string of two characters). -/
def ctxC1 : TXOBJ :=
  { locktime := 0, version := 1,
    ins := [{ outputHash := List.replicate 64 0, outputVout := 0,
              script := [0, 0], sequence := hexOfBytes [255, 255, 255, 255] }],
    outs := [] }

/-- Concrete transaction with one input holding a nonempty script. -/
def txC2 : TXOBJ :=
  { locktime := 0, version := 1,
    ins := [{ outputHash := [], outputVout := 0, script := [10, 10], sequence := [] }],
    outs := [] }

/-- Concrete transaction with two inputs and two outputs. -/
def txC3 : TXOBJ :=
  { locktime := 0, version := 1,
    ins := [{ outputHash := [], outputVout := 0, script := [], sequence := [] },
            { outputHash := [], outputVout := 1, script := [], sequence := [] }],
    outs := [{ script := [1, 1], satoshis := 7 }, { script := [2, 2], satoshis := 9 }] }

/-- Concrete transaction with two inputs carrying distinct scripts. -/
def txC4 : TXOBJ :=
  { locktime := 0, version := 1,
    ins := [{ outputHash := [], outputVout := 0, script := [10, 10], sequence := [] },
            { outputHash := [], outputVout := 1, script := [11, 11], sequence := [] }],
    outs := [] }

/-- Concrete transaction with one output whose amount is the exact integer
2^64 - 1 (the mathematical maximum uint64 value). -/
def txC7 : TXOBJ :=
  { locktime := 0, version := 1, ins := [],
    outs := [{ script := [], satoshis := 18446744073709551615 }] }

/-- Concrete transaction with two inputs but only one output. -/
def txC8 : TXOBJ :=
  { locktime := 0, version := 1,
    ins := [{ outputHash := [], outputVout := 0, script := [], sequence := [] },
            { outputHash := [], outputVout := 1, script := [], sequence := [] }],
    outs := [{ script := [1, 1], satoshis := 7 }] }

/-- A fixed dummy address value for the concrete capability record. -/
def dummyAddr : String := "z"

/-- Concrete, deterministic external capabilities for evaluation. -/
def capsW : Caps :=
  { privKeyToPubKey := fun _ => []
    pubKeyToAddr := fun _ => dummyAddr
    bs58decode := fun _ => []
    sha256x2 := fun _ => []
    sign := fun _ _ => [] }

/-- Concrete one-input transaction for the determinism witness. -/
def txW : TXOBJ :=
  { locktime := 0, version := 1,
    ins := [{ outputHash := [], outputVout := 0, script := [], sequence := [] }],
    outs := [] }

/-- The result of signing txW with capsW (input 0, SIGHASH_ALL). -/
def tx1W : TXOBJ :=
  { locktime := 0, version := 1,
    ins := [{ outputHash := [], outputVout := 0,
              script := [0, 7, 3, 0, 0, 4, 0, 2, 0, 0, 0, 2, 0, 0, 0, 1, 0, 0],
              sequence := [] }],
    outs := [] }

/-- numToBytes computes exactly the little-endian byte decomposition. -/
theorem numToBytes_eq_leBytes (k : Nat) : ∀ n, numToBytes n k = leBytes n k := by
  induction k with
  | zero => intro n; rfl
  | succ k ih =>
    intro n
    rw [numToBytes, ih]
    simp only [leBytes, List.range_succ_eq_map, List.map_cons, List.map_map]
    rw [pow_zero, Nat.div_one]
    congr 1
    apply List.map_congr_left
    intro j _
    simp only [Function.comp_apply, Nat.succ_eq_add_one]
    rw [pow_succ, mul_comm, Nat.div_div_eq_div_mul]

/-- C5: for every n below 2^64, numToVarInt emits n directly as one byte if
n is below 253; otherwise a one-byte marker followed by n in little-endian:
marker 253 then 2 bytes on [253, 65536), marker 254 then 4 bytes on
[65536, 2^32), and marker 253 again (the legacy quirk) then 8 bytes on
[2^32, 2^64). -/
theorem numToVarInt_spec (n : Nat) (h : n < 18446744073709551616) :
    numToVarInt n =
      if n < 253 then hexOfBytes [n]
      else if n < 65536 then hexOfBytes (253 :: leBytes n 2)
      else if n < 4294967296 then hexOfBytes (254 :: leBytes n 4)
      else hexOfBytes (253 :: leBytes n 8) := by
  rw [numToVarInt]
  split_ifs <;> simp [numToBytes_eq_leBytes]

/-- Witness for numToVarInt_spec at n = 2^40. -/
theorem numToVarInt_spec_witness :
    (1099511627776 : Nat) < 18446744073709551616 ∧
    numToVarInt 1099511627776 =
      (if (1099511627776 : Nat) < 253 then hexOfBytes [1099511627776]
       else if (1099511627776 : Nat) < 65536 then hexOfBytes (253 :: leBytes 1099511627776 2)
       else if (1099511627776 : Nat) < 4294967296 then hexOfBytes (254 :: leBytes 1099511627776 4)
       else hexOfBytes (253 :: leBytes 1099511627776 8)) :=
  ⟨by norm_num, numToVarInt_spec 1099511627776 (by norm_num)⟩

/-- C1 (code bug): serializeTx succeeds on ctxC1 but disagrees with the
claimed wire layout, because the script length varint encodes the script
hex string's CHARACTER count (two per byte), not its byte count. -/
theorem serializeTx_char_count_bug :
    (serializeTx ctxC1).isSome = true ∧ serializeTx ctxC1 ≠ some (serializeTxSpec ctxC1) := by
  decide

/-- C2 (code bug): signatureForm's Object.assign copy is shallow, so the
call rewrites the caller's transaction: after the call the caller's single
input carries the substitute script, not its original one. -/
theorem signatureForm_mutates_caller :
    (signatureForm txC2 0 [1, 1] SIGHASH_ALL).toOption.map
        (fun p => p.2.ins.map TxIn.script) = some [[1, 1]] ∧
    txC2.ins.map TxIn.script = [[10, 10]] := by
  decide

/-- C3 (code bug): in SINGLE mode with inputIndex 0 on a 2-input, 2-output
transaction, the preimage keeps 2 outputs (ins.length), not
inputIndex + 1 = 1, and blanks output 0, which the claim requires to stay
unchanged. -/
theorem signatureForm_single_truncates_to_ins_length :
    (signatureForm txC3 0 [] SIGHASH_SINGLE).toOption.map
        (fun p => (p.1.outs.length, p.1.outs.map TxOut.satoshis, p.1.outs.map TxOut.script)) =
      some (2, [jsMaxUint64, 9], [[], [2, 2]]) ∧ (2 : Nat) ≠ 0 + 1 := by
  decide

/-- C4 (code bug): signTx on input 0 clears input 1's unlocking script
(the shallow-copy mutation of signatureForm reaches the caller's inputs),
so fields other than ins[0].script do change. -/
theorem signTx_clears_other_inputs :
    (signTx capsW txC4 0 [] SIGHASH_ALL).toOption.map
        (fun t => (t.ins.get? 1).map TxIn.script) = some (some []) ∧
    (txC4.ins.get? 1).map TxIn.script = some [11, 11] := by
  decide

/-- C8 (code bug): SINGLE mode with 2 inputs, 1 output and inputIndex 1
(outputs.length below inputIndex + 1) raises no error at all: the call
silently returns a preimage with a single output. -/
theorem signatureForm_single_missing_range_check :
    txC8.outs.length < 1 + 1 ∧
    (signatureForm txC8 1 [] SIGHASH_SINGLE).toOption.map
        (fun p => p.1.outs.length) = some 1 := by
  decide

/-- C7 counterexample: at the exact integer 2^64 - 1 the amount does not
serialize to 8 bytes of 0xFF; the writeUInt32LE call raises a RangeError
(the placeholder test compares against 2^64, the double value of the
literal Math.pow(2,64) - 1). -/
theorem serializeTx_maxUint64_counterexample :
    serializeTx txC7 = none ∧ (18446744073709551615 : Nat) = 2 ^ 64 - 1 := by
  decide

/-- C7 (amended): for every output whose amount equals the SIGHASH_SINGLE
placeholder constant (2^64, the value of Math.pow(2,64) - 1 under double
rounding), serializeTx's output encoder emits the amount as exactly 8
bytes of 0xFF. -/
theorem serializeOut_placeholder (o : TxOut) (h : o.satoshis = jsMaxUint64) :
    serializeOut o =
      some (hexOfBytes (List.replicate 8 255) ++ numToVarInt o.script.length ++ o.script) := by
  simp only [serializeOut]
  rw [if_pos h]
  rfl

/-- Witness for serializeOut_placeholder at a concrete output. -/
theorem serializeOut_placeholder_witness :
    serializeOut { script := [], satoshis := jsMaxUint64 } =
      some (hexOfBytes (List.replicate 8 255) ++ numToVarInt ([] : Hex).length ++ ([] : Hex)) :=
  serializeOut_placeholder { script := [], satoshis := jsMaxUint64 } rfl

/-- C10: for every decode capability and every address, the script built
by mkPubkeyHashReplayScript is an address-dependent prefix followed by one
fixed tail: a push of the byte-reversed hardcoded block hash, a push of
the 3-byte little-endian encoding of height 141575, and
OP_CHECKBLOCKATHEIGHT — so the emitted replay-protection tail is identical
for every pair of addresses and no caller input can change the pinned
block. -/
theorem mkPubkeyHashReplayScript_pinned (decode : String → Hex) (address : String) :
    mkPubkeyHashReplayScript decode address =
      (OP_DUP ++ OP_HASH160 ++ getStringBufferLength ((decode address).drop 4) ++
        (decode address).drop 4 ++ OP_EQUALVERIFY ++ OP_CHECKSIG) ++ replaySuffixSpec := by
  have h : getStringBufferLength (hexOfBytes ((bytesOfHex blockHashConst).reverse)) ++
      (hexOfBytes ((bytesOfHex blockHashConst).reverse) ++
      (getStringBufferLength (hexOfBytes (if (uint32LEBytes 141575).getD 3 0 = 0
        then (uint32LEBytes 141575).take 3 else uint32LEBytes 141575)) ++
      (hexOfBytes (if (uint32LEBytes 141575).getD 3 0 = 0
        then (uint32LEBytes 141575).take 3 else uint32LEBytes 141575) ++
      OP_CHECKBLOCKATHEIGHT))) = replaySuffixSpec := by decide
  simp only [mkPubkeyHashReplayScript]
  rw [← h]
  simp [List.append_assoc]

/-- hexOfBytes distributes over append. -/
theorem hexOfBytes_append (a b : List Nat) :
    hexOfBytes (a ++ b) = hexOfBytes a ++ hexOfBytes b := by
  induction a with
  | nil => rfl
  | cons x xs ih => simp [hexOfBytes, ih]

/-- A hex string has two characters per byte. -/
theorem length_hexOfBytes (l : List Nat) : (hexOfBytes l).length = 2 * l.length := by
  induction l with
  | nil => rfl
  | cons x xs ih => simp [hexOfBytes, hexOfByte, ih]; omega

/-- getStringBufferLength of a byte list's hex string is the byte count. -/
theorem gsbl_hexOfBytes (l : List Nat) :
    getStringBufferLength (hexOfBytes l) = hexOfByte l.length := by
  rw [getStringBufferLength, length_hexOfBytes, Nat.mul_div_cancel_left _ (by norm_num)]

/-- The '89abcdef' first-character test holds exactly when the high bit of
the first byte is set. -/
theorem headIsHighDigit_hexOfBytes (b : Nat) (rest : List Nat) (hb : b < 256) :
    headIsHighDigit (hexOfBytes (b :: rest)) = decide (128 ≤ b) := by
  show decide (8 ≤ b / 16 % 16 ∧ b / 16 % 16 < 16) = decide (128 ≤ b)
  exact decide_eq_decide.mpr (by omega)

/-- The source's conditional '00' prepend equals the spec-side padHigh. -/
theorem padHigh_hex (b : Nat) (rest : List Nat) (hb : b < 256) :
    (if headIsHighDigit (hexOfBytes (b :: rest)) then [0, 0] ++ hexOfBytes (b :: rest)
     else hexOfBytes (b :: rest)) = hexOfBytes (padHigh (b :: rest)) := by
  rw [headIsHighDigit_hexOfBytes b rest hb]
  by_cases h : 128 ≤ b
  · simp [h, padHigh, hexOfBytes, hexOfByte]
  · simp [h, padHigh]

/-- C6: for every raw 64-byte (r, s) signature delivered by the signing
capability, the encoding signTx applies yields SEQUENCE tag 0x30, a length
byte, INTEGER tag 0x02, length byte and r bytes, INTEGER tag 0x02, length
byte and s bytes, then one trailing sighash byte, where r and s are
zero-padded exactly when their first byte has the high bit set (so
stripping that padding recovers the raw values), and the DER body length
is 6 + len(r') + len(s'). -/
theorem encodeRawSig_der (r s : List Nat) (hr : r.length = 32) (hs : s.length = 32)
    (hrb : ∀ b ∈ r, b < 256) (hsb : ∀ b ∈ s, b < 256) (hc : Nat) (hhc : hc < 256) :
    encodeRawSig (hexOfBytes (r ++ s)) hc =
      hexOfBytes (derPair (padHigh r) (padHigh s) ++ [hc]) ∧
    (derPair (padHigh r) (padHigh s)).length =
      6 + (padHigh r).length + (padHigh s).length := by
  refine ⟨?_, by simp [derPair]; omega⟩
  have b1rw : (hexOfBytes (r ++ s)).take 64 = hexOfBytes r := by
    rw [hexOfBytes_append]
    exact List.take_left' (by rw [length_hexOfBytes, hr])
  have b2rw : ((hexOfBytes (r ++ s)).drop 64).take 128 = hexOfBytes s := by
    rw [hexOfBytes_append, List.drop_left' (by rw [length_hexOfBytes, hr])]
    exact List.take_of_length_le (by rw [length_hexOfBytes, hs]; norm_num)
  simp only [encodeRawSig, b1rw, b2rw]
  cases r with
  | nil => simp at hr
  | cons rb rtl =>
  cases s with
  | nil => simp at hs
  | cons sb stl =>
  rw [padHigh_hex rb rtl (hrb _ (by simp)), padHigh_hex sb stl (hsb _ (by simp))]
  rw [gsbl_hexOfBytes, gsbl_hexOfBytes]
  have hL : ([0, 2] : Hex) ++ hexOfByte (padHigh (rb :: rtl)).length ++
      hexOfBytes (padHigh (rb :: rtl)) =
      hexOfBytes (2 :: (padHigh (rb :: rtl)).length :: padHigh (rb :: rtl)) := by
    simp [hexOfBytes]
    norm_num [hexOfByte]
  have hR : ([0, 2] : Hex) ++ hexOfByte (padHigh (sb :: stl)).length ++
      hexOfBytes (padHigh (sb :: stl)) =
      hexOfBytes (2 :: (padHigh (sb :: stl)).length :: padHigh (sb :: stl)) := by
    simp [hexOfBytes]
    norm_num [hexOfByte]
  rw [hL, hR, ← hexOfBytes_append, gsbl_hexOfBytes]
  have hlen : (2 :: (padHigh (rb :: rtl)).length :: padHigh (rb :: rtl) ++
      2 :: (padHigh (sb :: stl)).length :: padHigh (sb :: stl)).length =
      4 + (padHigh (rb :: rtl)).length + (padHigh (sb :: stl)).length := by
    simp; omega
  rw [hlen, Nat.mod_eq_of_lt hhc]
  simp only [derPair, hexOfBytes_append, hexOfBytes, List.append_assoc]
  norm_num [hexOfByte]
  simp [hexOfBytes_append, hexOfBytes, hexOfByte, List.append_assoc]

/-- Witness for encodeRawSig_der at r = 32 zero bytes, s = 32 0xFF bytes,
sighash code 1. -/
theorem encodeRawSig_der_witness :
    encodeRawSig (hexOfBytes (List.replicate 32 0 ++ List.replicate 32 255)) 1 =
      hexOfBytes (derPair (padHigh (List.replicate 32 0))
        (padHigh (List.replicate 32 255)) ++ [1]) ∧
    (derPair (padHigh (List.replicate 32 0)) (padHigh (List.replicate 32 255))).length =
      6 + (padHigh (List.replicate 32 0)).length + (padHigh (List.replicate 32 255)).length :=
  encodeRawSig_der (List.replicate 32 0) (List.replicate 32 255) (by decide) (by decide)
    (by decide) (by decide) 1 (by decide)

/-- Elements of a cleared input list are fixed by clearIn. -/
theorem clearIn_of_mem_clearScripts (x : TxIn) (l : List TxIn)
    (h : x ∈ clearScripts l) : clearIn x = x := by
  simp only [clearScripts, List.mem_map] at h
  obtain ⟨y, -, rfl⟩ := h
  rfl

/-- Clearing scripts is idempotent. -/
theorem clearScripts_idem (l : List TxIn) :
    clearScripts (clearScripts l) = clearScripts l := by
  simp only [clearScripts, List.map_map]
  exact List.map_congr_left (fun a _ => rfl)

/-- Clearing scripts commutes with updating one position. -/
theorem clearScripts_set (l : List TxIn) (i : Nat) (y : TxIn) :
    clearScripts (l.set i y) = (clearScripts l).set i (clearIn y) := by
  simp [clearScripts, List.map_set]

/-- Writing back the element already at a position is a no-op. -/
theorem set_get?_self {α : Type} (l : List α) (i : Nat) (a : α)
    (h : l.get? i = some a) : l.set i a = l := by
  induction l generalizing i with
  | nil => simp at h
  | cons x xs ih =>
    cases i with
    | zero => simp_all
    | succ n =>
      simp only [List.get?] at h
      simp [List.set, ih n h]

/-- Reading an in-range position just written returns the new value. -/
theorem get?_set_self {α : Type} (l : List α) (i : Nat) (a : α)
    (h : i < l.length) : (l.set i a).get? i = some a := by
  induction l generalizing i with
  | nil => simp at h
  | cons x xs ih =>
    cases i with
    | zero => rfl
    | succ n => simpa using ih n (by simpa using h)

/-- blankBefore 0 leaves the list unchanged. -/
theorem blankBefore_zero (l : List TxOut) : blankBefore 0 l = l := by
  cases l <;> rfl

/-- blankBefore preserves length. -/
theorem blankBefore_length (k : Nat) (l : List TxOut) :
    (blankBefore k l).length = l.length := by
  induction l generalizing k with
  | nil => cases k <;> rfl
  | cons o rest ih =>
    cases k with
    | zero => rfl
    | succ k => simp [blankBefore, ih]

/-- blankBefore commutes with take. -/
theorem take_blankBefore (k m : Nat) (l : List TxOut) :
    (blankBefore k l).take m = blankBefore k (l.take m) := by
  induction l generalizing k m with
  | nil => cases k <;> simp [blankBefore]
  | cons o rest ih =>
    cases k with
    | zero => simp [blankBefore_zero]
    | succ k =>
      cases m with
      | zero => simp [blankBefore]
      | succ m => simp [blankBefore, ih]

/-- blankBefore is idempotent. -/
theorem blankBefore_idem (k : Nat) (l : List TxOut) :
    blankBefore k (blankBefore k l) = blankBefore k l := by
  induction l generalizing k with
  | nil => cases k <;> rfl
  | cons o rest ih =>
    cases k with
    | zero => simp [blankBefore_zero]
    | succ k => simp [blankBefore, ih, blankOut]

/-- Re-running signatureForm on the caller's transaction as signTx leaves
it (all scripts cleared by the aliasing bug, input i rewritten) rebuilds
the same preimage and the same post-call state: the preimage depends only
on fields the first call preserved or already blanked. -/
theorem signatureForm_stable (txObj n a : TXOBJ) (i : Nat) (s F : Hex) (m : Nat) (zi : TxIn)
    (h : signatureForm txObj i s m = Except.ok (n, a))
    (hz : a.ins.get? i = some zi) :
    signatureForm { a with ins := a.ins.set i (setScript zi F) } i s m = Except.ok (n, a) := by
  simp only [signatureForm] at h
  cases heq : (clearScripts txObj.ins).get? i with
  | none =>
    simp only [heq] at h
    exact Except.noConfusion h
  | some ci =>
    simp only [heq] at h
    obtain ⟨hlt, -⟩ := List.get?_eq_some.mp heq
    have hciclear : clearIn ci = ci :=
      clearIn_of_mem_clearScripts ci _ (List.get?_mem heq)
    by_cases hm2 : m = SIGHASH_NONE
    · rw [if_pos hm2] at h
      obtain ⟨hn, ha⟩ := Prod.mk.injEq _ _ _ _ |>.mp (Except.ok.inj h)
      subst hn
      subst ha
      have hzi : zi = setScript ci s := by
        have hg := get?_set_self (clearScripts txObj.ins) i (setScript ci s) hlt
        rw [hg] at hz
        exact (Option.some.inj hz).symm
      have hC2 : clearScripts (((clearScripts txObj.ins).set i (setScript ci s)).set i
          (setScript zi F)) = clearScripts txObj.ins := by
        rw [clearScripts_set, clearScripts_set, List.set_set, clearScripts_idem]
        have hy : clearIn (setScript zi F) = ci := by rw [hzi]; exact hciclear
        rw [hy]
        exact set_get?_self _ _ _ heq
      simp only [signatureForm]
      rw [hC2]
      simp only [heq]
      rw [if_pos hm2]
    · by_cases hm3 : m = SIGHASH_SINGLE
      · rw [if_neg hm2, if_pos hm3] at h
        split at h
        · exact Except.noConfusion h
        · rename_i hcond
          obtain ⟨hn, ha⟩ := Prod.mk.injEq _ _ _ _ |>.mp (Except.ok.inj h)
          subst hn
          subst ha
          have hzi : zi = setScript ci s := by
            have hg := get?_set_self (clearScripts txObj.ins) i (setScript ci s) hlt
            rw [hg] at hz
            exact (Option.some.inj hz).symm
          have hC2 : clearScripts (((clearScripts txObj.ins).set i (setScript ci s)).set i
              (setScript zi F)) = clearScripts txObj.ins := by
            rw [clearScripts_set, clearScripts_set, List.set_set, clearScripts_idem]
            have hy : clearIn (setScript zi F) = ci := by rw [hzi]; exact hciclear
            rw [hy]
            exact set_get?_self _ _ _ heq
          simp only [signatureForm]
          rw [hC2]
          simp only [heq]
          rw [if_neg hm2, if_pos hm3, take_blankBefore, blankBefore_length]
          rw [if_neg hcond, blankBefore_idem, blankBefore_idem]
      · by_cases hm4 : m = SIGHASH_ANYONECANPAY
        · rw [if_neg hm2, if_neg hm3, if_pos hm4] at h
          obtain ⟨hn, ha⟩ := Prod.mk.injEq _ _ _ _ |>.mp (Except.ok.inj h)
          subst hn
          subst ha
          have hzi : zi = setScript ci s := by
            have hg := get?_set_self (clearScripts txObj.ins) i (setScript ci s) hlt
            rw [hg] at hz
            exact (Option.some.inj hz).symm
          have hC2 : clearScripts (((clearScripts txObj.ins).set i (setScript ci s)).set i
              (setScript zi F)) = clearScripts txObj.ins := by
            rw [clearScripts_set, clearScripts_set, List.set_set, clearScripts_idem]
            have hy : clearIn (setScript zi F) = ci := by rw [hzi]; exact hciclear
            rw [hy]
            exact set_get?_self _ _ _ heq
          simp only [signatureForm]
          rw [hC2]
          simp only [heq]
          rw [if_neg hm2, if_neg hm3, if_pos hm4]
        · rw [if_neg hm2, if_neg hm3, if_neg hm4] at h
          obtain ⟨hn, ha⟩ := Prod.mk.injEq _ _ _ _ |>.mp (Except.ok.inj h)
          subst hn
          subst ha
          have hzi : zi = setScript ci s := by
            have hg := get?_set_self (clearScripts txObj.ins) i (setScript ci s) hlt
            rw [hg] at hz
            exact (Option.some.inj hz).symm
          have hC2 : clearScripts (((clearScripts txObj.ins).set i (setScript ci s)).set i
              (setScript zi F)) = clearScripts txObj.ins := by
            rw [clearScripts_set, clearScripts_set, List.set_set, clearScripts_idem]
            have hy : clearIn (setScript zi F) = ci := by rw [hzi]; exact hciclear
            rw [hy]
            exact set_get?_self _ _ _ heq
          simp only [signatureForm]
          rw [hC2]
          simp only [heq]
          rw [if_neg hm2, if_neg hm3, if_neg hm4]

/-- C9: signing the same (transaction, index, key, mode) twice through the
same deterministic external capabilities yields byte-identical unlocking
scripts in the signed input, even though the first call mutates the
transaction: a successful second call reproduces input i's script
exactly. -/
theorem signTx_deterministic (caps : Caps) (txObj tx1 tx2 : TXOBJ) (i : Nat)
    (privKey : Hex) (hashcode : Nat)
    (h1 : signTx caps txObj i privKey hashcode = Except.ok tx1)
    (h2 : signTx caps tx1 i privKey hashcode = Except.ok tx2) :
    (tx2.ins.get? i).map TxIn.script = (tx1.ins.get? i).map TxIn.script := by
  simp only [signTx] at h1 h2
  cases hw : writeUInt16LEbuf4 hashcode with
  | none =>
    simp only [hw] at h1
    exact Except.noConfusion h1
  | some hcBuf =>
    simp only [hw] at h1 h2
    cases hsf : signatureForm txObj i
        (mkPubkeyHashReplayScript caps.bs58decode
          (caps.pubKeyToAddr (caps.privKeyToPubKey privKey))) hashcode with
    | error e =>
      simp only [hsf] at h1
      exact Except.noConfusion h1
    | ok p =>
      obtain ⟨n, a⟩ := p
      simp only [hsf] at h1
      cases hser : serializeTx n with
      | none =>
        simp only [hser] at h1
        exact Except.noConfusion h1
      | some hx =>
        simp only [hser] at h1
        cases hz : a.ins.get? i with
        | none =>
          simp only [hz] at h1
          exact Except.noConfusion h1
        | some zi =>
          simp only [hz] at h1
          have htx1 := Except.ok.inj h1
          subst htx1
          have hstab := signatureForm_stable txObj n a i
            (mkPubkeyHashReplayScript caps.bs58decode
              (caps.pubKeyToAddr (caps.privKeyToPubKey privKey)))
            (getStringBufferLength (encodeRawSig
                (caps.sign (caps.sha256x2 (bytesOfHex hx ++ hcBuf)) privKey) hashcode) ++
              encodeRawSig (caps.sign (caps.sha256x2 (bytesOfHex hx ++ hcBuf)) privKey) hashcode ++
              getStringBufferLength (caps.privKeyToPubKey privKey) ++ caps.privKeyToPubKey privKey)
            hashcode zi hsf hz
          simp only [hstab] at h2
          simp only [hser] at h2
          simp only [hz] at h2
          have htx2 := Except.ok.inj h2
          rw [← htx2]

/-- Witness for signTx_deterministic: both signing passes over txW with
the concrete capability record succeed and agree. -/
theorem signTx_deterministic_witness :
    signTx capsW txW 0 [] SIGHASH_ALL = Except.ok tx1W ∧
    signTx capsW tx1W 0 [] SIGHASH_ALL = Except.ok tx1W ∧
    (tx1W.ins.get? 0).map TxIn.script = (tx1W.ins.get? 0).map TxIn.script :=
  ⟨rfl, rfl, signTx_deterministic capsW txW tx1W tx1W 0 [] SIGHASH_ALL rfl rfl⟩
